import Mathlib

/-!
# The EDF demo application (`Src/main.c`)

A shallow embedding of the application file of the EDF scheduler demo: the
boot sequence `main`, and the six periodic task bodies `Button_1_Monitor`,
`Button_2_Monitor`, `Periodic_Transmitter`, `Uart_Receiver`,
`Load_1_Simulation` and `Load_2_Simulation`.

Conventions of the embedding.

* Machine integers are natural numbers; a cast `(uint8_t)x` is `u8 x`.
* Every call into the kernel or a peripheral driver is recorded as a `Call`
  in a trace; the value such a call returns is an input of the model.
* A task body is an initialisation followed by a loop; one loop iteration is
  a function from the task's local variables and the values read in that
  iteration to the new local variables and the calls made.
* C operations that can go out of bounds (`strcpy`, an indexed store) return
  `Option`, with `none` for the out-of-bounds case.
-/

namespace EDFDemo

/-! ## Machine integers and C strings -/

/-- The cast `(uint8_t)x`. -/
def u8 (x : Nat) : Nat := x % 256

/-- The cast `(uint16_t)x`. -/
def u16 (x : Nat) : Nat := x % 65536

/-- The characters of a C string literal as bytes, terminating NUL excluded. -/
def cstr (s : String) : List Nat := s.toList.map Char.toNat

/-- The character constant for a newline, as a byte. -/
def NEWLINE : Nat := Char.toNat '\n'

/-- The C string held in a character buffer: the bytes before the first NUL. -/
def cText (buf : List Nat) : List Nat := buf.takeWhile (fun b => b != 0)

/-- The call `strcpy(dst, src)` into a buffer of fixed size, bounds-checked:
the characters of `src` and then a NUL are stored from index 0 on, the rest
of the buffer is left as it was; `none` when they do not fit. -/
def strcpy (dst : List Nat) (src : List Nat) : Option (List Nat) :=
  if src.length + 1 ≤ dst.length then
    some (src ++ 0 :: dst.drop (src.length + 1))
  else none

/-- The number of bytes `strcpy` stores for the source `src`. -/
def strcpyWritten (src : List Nat) : Nat := src.length + 1

/-- The indexed store `buf[idx] = v`, bounds-checked. -/
def store (buf : List Nat) (idx : Nat) (v : Nat) : Option (List Nat) :=
  if idx < buf.length then some (buf.set idx v) else none

/-! ## Types of `main.c` -/

/-- The enumeration `buttonEvent_t`: rising edge, falling edge, no change. -/
inductive buttonEvent_t where
  | RE
  | FE
  | NC
deriving DecidableEq, Repr

/-- The structure `message_t`: an identifier byte and a text buffer of
`(uint8_t)25` characters. -/
structure message_t where
  messageID : Nat
  messageData : List Nat
deriving DecidableEq, Repr

/-- The value of `sizeof(message_t)`: one `uint8_t` and `(uint8_t)25` chars,
all of alignment 1. -/
def sizeof_message_t : Nat := 1 + u8 25

/-- The initialiser `message_t Message = {0, 0}`: every member zero. -/
def message_zero : message_t :=
  { messageID := 0, messageData := List.replicate (u8 25) 0 }

/-- Modelled from the spec: the type `pinState_t` is declared in `GPIO.h`,
which is not part of the sources; the spec gives the pin interface as
`read(port, pin) -> High|Low`. -/
inductive pinState_t where
  | PIN_IS_LOW
  | PIN_IS_HIGH
deriving DecidableEq, Repr

/-- The ports named in `main.c`. -/
inductive portX_t where
  | PORT_0
  | PORT_1
deriving DecidableEq, Repr

/-- The pins named in `main.c`. -/
inductive pinX_t where
  | PIN0
  | PIN1
deriving DecidableEq, Repr

/-- The six task functions, as passed to `xTaskPeriodicCreate`. -/
inductive TaskFunction_t where
  | Button_1_Monitor
  | Button_2_Monitor
  | Periodic_Transmitter
  | Uart_Receiver
  | Load_1_Simulation
  | Load_2_Simulation
deriving DecidableEq, Repr

/-- The peripheral registers written by `configTimer1` and
`prvSetupHardware`. -/
inductive Register where
  | T1PR
  | T1TCR
  | VPBDIV
deriving DecidableEq, Repr

/-- One call into the kernel or a driver (or one register store), with its
arguments. A pointer argument that is `NULL` is `none`. -/
inductive Call where
  | xSerialPortInitMinimal (baud : Nat)
  | GPIO_init
  | regAssign (r : Register) (v : Nat)
  | regOr (r : Register) (v : Nat)
  | xQueueCreate (uxQueueLength uxItemSize : Nat)
  | xTaskPeriodicCreate (pxTaskCode : TaskFunction_t) (pcName : String)
      (usStackDepth : Nat) (pvParameters : Option Nat) (uxPriority : Nat)
      (pxCreatedTask : Option Nat) (period : Nat)
  | vTaskStartScheduler
  | GPIO_read (port : portX_t) (pin : pinX_t)
  | vTaskSetApplicationTaskTag (xTask : Option Nat) (tag : Nat)
  | xTaskGetTickCount
  | xQueueSendToBack (item : message_t) (xTicksToWait : Nat)
  | xQueueReceive (xTicksToWait : Nat)
  | vSerialPutString (buf : List Nat) (len : Nat)
  | vTaskDelayUntil (pxPreviousWakeTime : Nat) (xTimeIncrement : Nat)
deriving DecidableEq, Repr

/-- Modelled from the spec: `vTaskDelayUntil` is kernel code that is not part
of the sources. The spec's `delay_until(&mut last_wake_time, period)` sets
`last_wake_time` to `last_wake_time + period`; the tick counter is `w` bits
wide and wraps. The result is the new value of `*pxPreviousWakeTime`. -/
def vTaskDelayUntil (w : Nat) (pxPreviousWakeTime xTimeIncrement : Nat) : Nat :=
  (pxPreviousWakeTime + xTimeIncrement) % 2 ^ w

/-- Run a task loop: `iter` is one iteration, the list holds the values read
in the successive iterations. The calls of all iterations are concatenated;
`none` as soon as one iteration faults. -/
def runLoop {σ ι : Type} (iter : σ → ι → Option (σ × List Call)) :
    σ → List ι → Option (σ × List Call)
  | s, [] => some (s, [])
  | s, i :: is =>
    match iter s i with
    | none => none
    | some (s1, t1) =>
      match runLoop iter s1 is with
      | none => none
      | some (s2, t2) => some (s2, t1 ++ t2)

/-! ## The button monitors -/

/-- What differs between `Button_1_Monitor` and `Button_2_Monitor`: the pin
read, the task tag, and the two texts. -/
structure ButtonCfg where
  pin : pinX_t
  tag : Nat
  risingText : String
  fallingText : String

/-- The local variables of a button monitor that live across iterations. -/
structure ButtonState where
  last_time : Nat
  Message : message_t
  send : Bool
  PrevState : pinState_t
deriving DecidableEq, Repr

/-- The values a button monitor obtains in one iteration: the level returned
by `GPIO_read`, and the value `xQueueSendToBack` returns if it is called. -/
structure ButtonInput where
  CurrState : pinState_t
  sendResult : Bool
deriving DecidableEq, Repr

/-- The edge detection at the head of the loop: the new `PrevState` and the
event. -/
def buttonEdge (PrevState CurrState : pinState_t) : pinState_t × buttonEvent_t :=
  if CurrState ≠ PrevState then
    (CurrState,
      if CurrState = pinState_t.PIN_IS_HIGH then buttonEvent_t.RE else buttonEvent_t.FE)
  else
    (PrevState, buttonEvent_t.NC)

/-- The statement `switch((int)event)`: the new `Message` and `send`. -/
def buttonSwitch (c : ButtonCfg) (Message : message_t) (event : buttonEvent_t) :
    Option (message_t × Bool) :=
  match event with
  | buttonEvent_t.RE =>
    match strcpy Message.messageData (cstr c.risingText) with
    | none => none
    | some d =>
      match store d (u8 25 - 1) NEWLINE with
      | none => none
      | some d1 => some ({ Message with messageData := d1 }, true)
  | buttonEvent_t.FE =>
    match strcpy Message.messageData (cstr c.fallingText) with
    | none => none
    | some d =>
      match store d (u8 25 - 1) NEWLINE with
      | none => none
      | some d1 => some ({ Message with messageData := d1 }, true)
  | buttonEvent_t.NC => some (Message, false)

/-- One iteration of the loop of a button monitor, for a tick counter of `w`
bits. -/
def buttonIteration (w : Nat) (c : ButtonCfg) (s : ButtonState) (i : ButtonInput) :
    Option (ButtonState × List Call) :=
  let e := buttonEdge s.PrevState i.CurrState
  match buttonSwitch c s.Message e.2 with
  | none => none
  | some (Message, send) =>
    some ({ last_time := vTaskDelayUntil w s.last_time (u8 50),
            Message := Message, send := send, PrevState := e.1 },
          [Call.GPIO_read portX_t.PORT_1 c.pin]
            ++ (if send = true then [Call.xQueueSendToBack Message (u8 5)] else [])
            ++ [Call.vTaskDelayUntil s.last_time (u8 50)])

/-- The part of a button monitor before its loop: `r0` is the level read by
the first `GPIO_read`, `t0` the value of `xTaskGetTickCount`. -/
def buttonInit (c : ButtonCfg) (r0 : pinState_t) (t0 : Nat) : ButtonState × List Call :=
  ({ last_time := t0, Message := message_zero, send := false, PrevState := r0 },
   [Call.GPIO_read portX_t.PORT_1 c.pin,
    Call.vTaskSetApplicationTaskTag none c.tag,
    Call.xTaskGetTickCount])

/-- A button monitor run for as many iterations as there are inputs. -/
def buttonMonitor (w : Nat) (c : ButtonCfg) (r0 : pinState_t) (t0 : Nat)
    (is : List ButtonInput) : Option (ButtonState × List Call) :=
  match runLoop (buttonIteration w c) (buttonInit c r0 t0).1 is with
  | none => none
  | some (s, t) => some (s, (buttonInit c r0 t0).2 ++ t)

/-- The constants of `Button_1_Monitor`. -/
def button1 : ButtonCfg :=
  { pin := pinX_t.PIN0, tag := 1,
    risingText := "Button_1_Rising_Edge", fallingText := "Button_1_Falling_Edge" }

/-- The constants of `Button_2_Monitor`. -/
def button2 : ButtonCfg :=
  { pin := pinX_t.PIN1, tag := 2,
    risingText := "Button_2_Rising_Edge", fallingText := "Button_2_Falling_Edge" }

/-- The task `Button_1_Monitor`, run for `is.length` iterations. -/
def Button_1_Monitor (w : Nat) (r0 : pinState_t) (t0 : Nat) (is : List ButtonInput) :
    Option (ButtonState × List Call) :=
  buttonMonitor w button1 r0 t0 is

/-- The task `Button_2_Monitor`, run for `is.length` iterations. -/
def Button_2_Monitor (w : Nat) (r0 : pinState_t) (t0 : Nat) (is : List ButtonInput) :
    Option (ButtonState × List Call) :=
  buttonMonitor w button2 r0 t0 is

/-! ## The periodic transmitter -/

/-- The local variables of `Periodic_Transmitter`. -/
structure TransmitterState where
  last_time : Nat
  Message : message_t
deriving DecidableEq, Repr

/-- The part of `Periodic_Transmitter` before its loop; `t0` is the value of
`xTaskGetTickCount`. -/
def Periodic_Transmitter_init (t0 : Nat) : TransmitterState × List Call :=
  ({ last_time := t0, Message := { message_zero with messageID := Char.toNat '3' } },
   [Call.vTaskSetApplicationTaskTag none 3, Call.xTaskGetTickCount])

/-- One iteration of the loop of `Periodic_Transmitter`; the input is the
value returned by `xQueueSendToBack`. -/
def Periodic_Transmitter_iteration (w : Nat) (s : TransmitterState) (_sendResult : Bool) :
    Option (TransmitterState × List Call) :=
  match strcpy s.Message.messageData (cstr "Periodic_Transmitter") with
  | none => none
  | some d =>
    match store d (u8 25 - 1) NEWLINE with
    | none => none
    | some d1 =>
      let Message : message_t := { s.Message with messageData := d1 }
      some ({ last_time := vTaskDelayUntil w s.last_time (u8 100), Message := Message },
            [Call.xQueueSendToBack Message (u8 5),
             Call.vTaskDelayUntil s.last_time (u8 100)])

/-- The task `Periodic_Transmitter`, run for `is.length` iterations. -/
def Periodic_Transmitter (w : Nat) (t0 : Nat) (is : List Bool) :
    Option (TransmitterState × List Call) :=
  match runLoop (Periodic_Transmitter_iteration w) (Periodic_Transmitter_init t0).1 is with
  | none => none
  | some (s, t) => some (s, (Periodic_Transmitter_init t0).2 ++ t)

/-! ## The UART receiver -/

/-- The local variables of `Uart_Receiver`. -/
structure ReceiverState where
  last_time : Nat
  xMessageBuffer : message_t
deriving DecidableEq, Repr

/-- The part of `Uart_Receiver` before its loop. The buffer is not
initialised: `garbage` is whatever it holds. -/
def Uart_Receiver_init (garbage : message_t) (t0 : Nat) : ReceiverState × List Call :=
  ({ last_time := t0, xMessageBuffer := garbage },
   [Call.vTaskSetApplicationTaskTag none 4, Call.xTaskGetTickCount])

/-- One iteration of the loop of `Uart_Receiver`. The input is the outcome of
`xQueueReceive`: `some m` when it returned `pdPASS` and copied the item `m`
into the buffer, `none` when it returned anything else and left the buffer
alone. -/
def Uart_Receiver_iteration (w : Nat) (s : ReceiverState) (received : Option message_t) :
    Option (ReceiverState × List Call) :=
  match received with
  | some m =>
    some ({ last_time := vTaskDelayUntil w s.last_time (u8 20), xMessageBuffer := m },
          [Call.xQueueReceive (u8 5),
           Call.vSerialPutString m.messageData (u8 25),
           Call.vTaskDelayUntil s.last_time (u8 20)])
  | none =>
    some ({ last_time := vTaskDelayUntil w s.last_time (u8 20),
            xMessageBuffer := s.xMessageBuffer },
          [Call.xQueueReceive (u8 5),
           Call.vTaskDelayUntil s.last_time (u8 20)])

/-- The task `Uart_Receiver`, run for `is.length` iterations. -/
def Uart_Receiver (w : Nat) (garbage : message_t) (t0 : Nat) (is : List (Option message_t)) :
    Option (ReceiverState × List Call) :=
  match runLoop (Uart_Receiver_iteration w) (Uart_Receiver_init garbage t0).1 is with
  | none => none
  | some (s, t) => some (s, (Uart_Receiver_init garbage t0).2 ++ t)

/-! ## The load simulators -/

/-- A product of two operands promoted to `int` (32 bits, signed): `none`
when the mathematical product is not representable. -/
def mulInt (a b : Int) : Option Int :=
  if -(2 ^ 31 : Int) ≤ a * b ∧ a * b < (2 ^ 31 : Int) then some (a * b) else none

/-- The conversion of an `int` to `uint32_t` for the comparison with the
counter. -/
def toU32 (z : Int) : Nat := (z % (2 ^ 32 : Int)).toNat

/-- The loop bound `((uint8_t)k) * ((uint16_t)6666)`, as the `uint32_t` the
counter is compared with. -/
def loadBound (k : Nat) : Option Nat :=
  match mulInt (u8 k : Nat) (u16 6666 : Nat) with
  | none => none
  | some z => some (toU32 z)

/-- The loop `for(...; i<bound; i++){ i=i; }` from the point after `i=0`:
`i` is the `uint32_t` counter, `n` counts the executions of the body. The
result is the final counter and the final count; `none` when `fuel` tests of
the condition were not enough. -/
def busyLoop (bound : Nat) : Nat → Nat → Nat → Option (Nat × Nat)
  | 0, _, _ => none
  | fuel + 1, i, n =>
    if i < bound then
      let i1 := i
      busyLoop bound fuel ((i1 + 1) % 2 ^ 32) (n + 1)
    else some (i, n)

/-- The local variables of a load simulator. -/
structure LoadState where
  last_time : Nat
  i : Nat
deriving DecidableEq, Repr

/-- One iteration of the outer loop of a load simulator with factor `k` and
period `period`. -/
def loadIteration (w fuel k period : Nat) (s : LoadState) (_u : Unit) :
    Option (LoadState × List Call) :=
  match loadBound k with
  | none => none
  | some b =>
    match busyLoop b fuel 0 0 with
    | none => none
    | some r =>
      some ({ last_time := vTaskDelayUntil w s.last_time period, i := r.1 },
            [Call.vTaskDelayUntil s.last_time period])

/-- The part of a load simulator before its loop; the counter is not
initialised and holds `garbage`. -/
def loadInit (tag garbage t0 : Nat) : LoadState × List Call :=
  ({ last_time := t0, i := garbage },
   [Call.vTaskSetApplicationTaskTag none tag, Call.xTaskGetTickCount])

/-- The task `Load_1_Simulation`, run for `N` iterations of its outer loop. -/
def Load_1_Simulation (w fuel garbage t0 N : Nat) : Option (LoadState × List Call) :=
  match runLoop (loadIteration w fuel 5 (u8 10)) (loadInit 5 garbage t0).1
      (List.replicate N ()) with
  | none => none
  | some (s, t) => some (s, (loadInit 5 garbage t0).2 ++ t)

/-- The task `Load_2_Simulation`, run for `N` iterations of its outer loop. -/
def Load_2_Simulation (w fuel garbage t0 N : Nat) : Option (LoadState × List Call) :=
  match runLoop (loadIteration w fuel 12 (u8 100)) (loadInit 6 garbage t0).1
      (List.replicate N ()) with
  | none => none
  | some (s, t) => some (s, (loadInit 6 garbage t0).2 ++ t)

/-! ## The entry point -/

/-- The function `configTimer1`. -/
def configTimer1 : List Call :=
  [Call.regAssign Register.T1PR 1000, Call.regOr Register.T1TCR 1]

/-- The function `prvSetupHardware`; `mainCOM_TEST_BAUD_RATE` is 115200 and
`mainBUS_CLK_FULL` is 1. -/
def prvSetupHardware : List Call :=
  [Call.xSerialPortInitMinimal 115200, Call.GPIO_init] ++ configTimer1
    ++ [Call.regAssign Register.VPBDIV 1]

/-- The control points of `main`: one before each statement, one inside the
call of `vTaskStartScheduler`, and the point after the end of the body. -/
inductive MainPc where
  | atSetupHardware
  | atQueueCreate
  | atCreate (k : Fin 6)
  | atStartScheduler
  | inScheduler
  | atForever
  | returned
deriving DecidableEq, Repr

/-- What the environment answers to `main`: the handle `xQueueCreate`
returns, the value each `xTaskPeriodicCreate` returns, and whether
`vTaskStartScheduler` returns. -/
structure MainEnv where
  queueHandle : Option Nat
  created : Fin 6 → Bool
  schedulerReturns : Bool

/-- The state of `main`: its control point, the global `Queue`, and the
calls made so far. -/
structure MainState where
  pc : MainPc
  Queue : Option Nat
  trace : List Call
deriving DecidableEq, Repr

/-- The arguments of the `k`-th `xTaskPeriodicCreate` of `main`;
`stack` is `configMINIMAL_STACK_SIZE`, which `FreeRTOSConfig.h` defines. -/
def createCall (stack : Nat) (k : Fin 6) : Call :=
  match k with
  | 0 => Call.xTaskPeriodicCreate TaskFunction_t.Button_1_Monitor "Button_1_Monitor"
          stack none 0 none (u8 50)
  | 1 => Call.xTaskPeriodicCreate TaskFunction_t.Button_2_Monitor "Button_2_Monitor"
          stack none 0 none (u8 50)
  | 2 => Call.xTaskPeriodicCreate TaskFunction_t.Periodic_Transmitter "Periodic_Transmitter"
          stack none 0 none (u8 100)
  | 3 => Call.xTaskPeriodicCreate TaskFunction_t.Uart_Receiver "Uart_Receiver"
          stack none 0 none (u8 20)
  | 4 => Call.xTaskPeriodicCreate TaskFunction_t.Load_1_Simulation "Load_1_Simulation"
          stack none 0 none (u8 10)
  | 5 => Call.xTaskPeriodicCreate TaskFunction_t.Load_2_Simulation "Load_2_Simulation"
          stack none 0 none (u8 100)

/-- One step of `main`. -/
def mainStep (stack : Nat) (env : MainEnv) (s : MainState) : MainState :=
  match s.pc with
  | MainPc.atSetupHardware =>
    { s with pc := MainPc.atQueueCreate, trace := s.trace ++ prvSetupHardware }
  | MainPc.atQueueCreate =>
    { pc := MainPc.atCreate 0, Queue := env.queueHandle,
      trace := s.trace ++ [Call.xQueueCreate (u8 10) sizeof_message_t] }
  | MainPc.atCreate k =>
    { s with
      pc := if h : k.val + 1 < 6 then MainPc.atCreate ⟨k.val + 1, h⟩
            else MainPc.atStartScheduler,
      trace := s.trace ++ [createCall stack k] }
  | MainPc.atStartScheduler =>
    { s with pc := MainPc.inScheduler, trace := s.trace ++ [Call.vTaskStartScheduler] }
  | MainPc.inScheduler =>
    if env.schedulerReturns = true then { s with pc := MainPc.atForever } else s
  | MainPc.atForever => s
  | MainPc.returned => s

/-- The state in which `main` is entered. -/
def mainStart : MainState :=
  { pc := MainPc.atSetupHardware, Queue := none, trace := [] }

/-- The state of `main` after `n` steps. -/
def mainRun (stack : Nat) (env : MainEnv) : Nat → MainState
  | 0 => mainStart
  | n + 1 => mainStep stack env (mainRun stack env n)

/-! ## Observations on traces, and the vocabulary of the statements -/

/-- The messages passed to `xQueueSendToBack` in a trace, in order. -/
def sentMessages : List Call → List message_t
  | [] => []
  | Call.xQueueSendToBack m _ :: t => m :: sentMessages t
  | _ :: t => sentMessages t

/-- The (buffer, length) pairs passed to `vSerialPutString` in a trace, in
order. -/
def transmitted : List Call → List (List Nat × Nat)
  | [] => []
  | Call.vSerialPutString b n :: t => (b, n) :: transmitted t
  | _ :: t => transmitted t

/-- The levels at which a sequence of readings changes: `prev` is the level
before the first reading; a reading is kept when it differs from the one
before it. -/
def changes : pinState_t → List pinState_t → List pinState_t
  | _, [] => []
  | prev, r :: rs => if r ≠ prev then r :: changes r rs else changes r rs

/-- The number of level changes among the readings `prev, r1, r2, ...`: the
number of places where a reading differs from the one before it. -/
def levelChanges : pinState_t → List pinState_t → Nat
  | _, [] => 0
  | prev, r :: rs => (if r ≠ prev then 1 else 0) + levelChanges r rs

/-- The text of a button monitor for an edge that ends at level `r`. -/
def edgeText (c : ButtonCfg) (r : pinState_t) : String :=
  if r = pinState_t.PIN_IS_HIGH then c.risingText else c.fallingText

/-- A text buffer of 25 bytes that holds `text`, zeros from the end of the
text up to index 23, and a newline at index 24. -/
def paddedText (text : List Nat) : List Nat :=
  text ++ List.replicate (24 - text.length) 0 ++ [NEWLINE]

/-- The message with identifier 0 whose buffer is the padded text of the
edge that ends at level `r`. -/
def edgeMessage (c : ButtonCfg) (r : pinState_t) : message_t :=
  { messageID := 0, messageData := paddedText (cstr (edgeText c r)) }

/-- The message with identifier `'3'` whose buffer is the padded text
`Periodic_Transmitter`. -/
def transmitterMessage : message_t :=
  { messageID := Char.toNat '3', messageData := paddedText (cstr "Periodic_Transmitter") }

/-- The invariant of the buffer of a button monitor: it is as initialised, or
it is the message of one of the two edges. -/
def ButtonInv (c : ButtonCfg) (s : ButtonState) : Prop :=
  s.Message = message_zero ∨ s.Message = edgeMessage c pinState_t.PIN_IS_HIGH ∨
    s.Message = edgeMessage c pinState_t.PIN_IS_LOW

/-- The invariant of the buffer of the periodic transmitter. -/
def TransmitterInv (s : TransmitterState) : Prop :=
  s.Message = { message_zero with messageID := Char.toNat '3' } ∨
    s.Message = transmitterMessage

/-- The period with which a trace creates the task `f`: the last argument of
the first `xTaskPeriodicCreate` call for `f`. -/
def createdPeriod (f : TaskFunction_t) : List Call → Option Nat
  | [] => none
  | Call.xTaskPeriodicCreate g _ _ _ _ _ p :: t =>
    if g = f then some p else createdPeriod f t
  | _ :: t => createdPeriod f t

/-! ## Properties of `main` -/

/-- A step of `main` only ever appends to the trace. -/
theorem mainStep_trace_grows (stack : Nat) (env : MainEnv) (s : MainState) :
    s.trace <+: (mainStep stack env s).trace := by
  unfold mainStep
  split
  · exact List.prefix_append _ _
  · exact List.prefix_append _ _
  · exact List.prefix_append _ _
  · exact List.prefix_append _ _
  · split
    · exact List.prefix_refl _
    · exact List.prefix_refl _
  · exact List.prefix_refl _
  · exact List.prefix_refl _

/-- The trace of `main` grows monotonically along a run. -/
theorem mainRun_trace_grows (stack : Nat) (env : MainEnv) (n k : Nat) :
    (mainRun stack env n).trace <+: (mainRun stack env (n + k)).trace := by
  induction k with
  | zero => exact List.prefix_refl _
  | succ k ih =>
    have h : mainRun stack env (n + (k + 1)) = mainStep stack env (mainRun stack env (n + k)) := rfl
    rw [h]
    exact ih.trans (mainStep_trace_grows stack env _)

/-- A step of `main` does not reach the end of the body of `main`. -/
theorem mainStep_not_returned (stack : Nat) (env : MainEnv) (s : MainState)
    (h : s.pc ≠ MainPc.returned) : (mainStep stack env s).pc ≠ MainPc.returned := by
  unfold mainStep
  split
  · simp
  · simp
  · simp only
    split
    · simp
    · simp
  · simp
  · split
    · simp
    · exact h
  · exact h
  · exact h

/-- From the ninth step on, `main` is inside the scheduler or in its final
loop, and its state differs from the state after nine steps in the control
point only. -/
theorem mainRun_after_start (stack : Nat) (env : MainEnv) (n : Nat) :
    ((mainRun stack env (9 + n)).pc = MainPc.inScheduler ∨
      (mainRun stack env (9 + n)).pc = MainPc.atForever) ∧
    (mainRun stack env (9 + n)).trace = (mainRun stack env 9).trace ∧
    (mainRun stack env (9 + n)).Queue = (mainRun stack env 9).Queue := by
  induction n with
  | zero => exact ⟨Or.inl rfl, rfl, rfl⟩
  | succ n ih =>
    have h : mainRun stack env (9 + (n + 1)) = mainStep stack env (mainRun stack env (9 + n)) := rfl
    rw [h]
    obtain ⟨hpc, htr, hq⟩ := ih
    rcases hpc with hpc | hpc
    · by_cases hr : env.schedulerReturns = true
      · simp [mainStep, hpc, hr, htr, hq]
      · simp [mainStep, hpc, hr, htr, hq]
    · simp [mainStep, hpc, htr, hq]

/-- Claim C1: with the kernel and hardware calls recorded as a trace, `main`
makes exactly this sequence of calls, whatever `xQueueCreate` and the
`xTaskPeriodicCreate` calls return and whether or not the scheduler returns:
the calls of `prvSetupHardware`; `xQueueCreate(10, 26)`; six
`xTaskPeriodicCreate` calls, for `Button_1_Monitor`, `Button_2_Monitor`,
`Periodic_Transmitter`, `Uart_Receiver`, `Load_1_Simulation`,
`Load_2_Simulation`, with periods 50, 50, 100, 20, 10, 100, each with
priority argument 0, `NULL` parameter and `NULL` handle pointer; then
`vTaskStartScheduler`. The trace after nine steps is this sequence, it stays
this sequence ever after, and every earlier trace is a prefix of it. -/
theorem main_call_sequence (stack : Nat) (env : MainEnv) :
    (mainRun stack env 9).trace =
      prvSetupHardware ++
      [Call.xQueueCreate 10 26,
       Call.xTaskPeriodicCreate TaskFunction_t.Button_1_Monitor "Button_1_Monitor"
         stack none 0 none 50,
       Call.xTaskPeriodicCreate TaskFunction_t.Button_2_Monitor "Button_2_Monitor"
         stack none 0 none 50,
       Call.xTaskPeriodicCreate TaskFunction_t.Periodic_Transmitter "Periodic_Transmitter"
         stack none 0 none 100,
       Call.xTaskPeriodicCreate TaskFunction_t.Uart_Receiver "Uart_Receiver"
         stack none 0 none 20,
       Call.xTaskPeriodicCreate TaskFunction_t.Load_1_Simulation "Load_1_Simulation"
         stack none 0 none 10,
       Call.xTaskPeriodicCreate TaskFunction_t.Load_2_Simulation "Load_2_Simulation"
         stack none 0 none 100,
       Call.vTaskStartScheduler] ∧
    prvSetupHardware =
      [Call.xSerialPortInitMinimal 115200, Call.GPIO_init,
       Call.regAssign Register.T1PR 1000, Call.regOr Register.T1TCR 1,
       Call.regAssign Register.VPBDIV 1] ∧
    sizeof_message_t = 26 ∧
    (∀ n, (mainRun stack env (9 + n)).trace = (mainRun stack env 9).trace) ∧
    (∀ n, (mainRun stack env n).trace <+: (mainRun stack env 9).trace) := by
  refine ⟨rfl, rfl, rfl, fun n => (mainRun_after_start stack env n).2.1, fun n => ?_⟩
  rcases Nat.lt_or_ge n 9 with h | h
  · have h1 := mainRun_trace_grows stack env n (9 - n)
    have h2 : n + (9 - n) = 9 := by omega
    rw [h2] at h1
    exact h1
  · obtain ⟨k, rfl⟩ := Nat.exists_eq_add_of_le h
    rw [(mainRun_after_start stack env k).2.1]

/-- Claim C5: `main` never returns. No run of `main`, of any length and
against any environment, is at the point after the end of its body. When
`vTaskStartScheduler` returns, `main` is in its final loop after ten steps;
a step from the final loop leaves the whole state as it is, so the state
(and with it the trace of calls) is the same ever after, and the trace is
the one that ends with the call of `vTaskStartScheduler`. -/
theorem main_never_returns (stack : Nat) (q : Option Nat) (c : Fin 6 → Bool) :
    (∀ env n, (mainRun stack env n).pc ≠ MainPc.returned) ∧
    (mainRun stack ⟨q, c, true⟩ 10).pc = MainPc.atForever ∧
    (∀ env s, s.pc = MainPc.atForever → mainStep stack env s = s) ∧
    (∀ m, mainRun stack ⟨q, c, true⟩ (10 + m) = mainRun stack ⟨q, c, true⟩ 10) ∧
    (mainRun stack ⟨q, c, true⟩ 10).trace = (mainRun stack ⟨q, c, true⟩ 9).trace ∧
    (mainRun stack ⟨q, c, true⟩ 9).trace.getLast? = some Call.vTaskStartScheduler := by
  refine ⟨?_, rfl, ?_, ?_, rfl, rfl⟩
  · intro env n
    induction n with
    | zero => simp [mainRun, mainStart]
    | succ n ih => exact mainStep_not_returned stack env _ ih
  · intro env s hs
    simp [mainStep, hs]
  · intro m
    induction m with
    | zero => rfl
    | succ m ih =>
      have h : mainRun stack ⟨q, c, true⟩ (10 + (m + 1))
          = mainStep stack ⟨q, c, true⟩ (mainRun stack ⟨q, c, true⟩ (10 + m)) := rfl
      rw [h, ih]
      rfl

/-! ## Properties of task loops in general -/

/-- The messages sent in a concatenation of traces. -/
theorem sentMessages_append (a b : List Call) :
    sentMessages (a ++ b) = sentMessages a ++ sentMessages b := by
  induction a with
  | nil => rfl
  | cons x a ih => cases x <;> simp [sentMessages, ih]

/-- The strings transmitted in a concatenation of traces. -/
theorem transmitted_append (a b : List Call) :
    transmitted (a ++ b) = transmitted a ++ transmitted b := by
  induction a with
  | nil => rfl
  | cons x a ih => cases x <;> simp [transmitted, ih]

/-- Unfolding of a task loop on a successful first iteration. -/
theorem runLoop_cons {σ ι : Type} (iter : σ → ι → Option (σ × List Call))
    (s s1 s2 : σ) (t1 t2 : List Call) (i : ι) (is : List ι)
    (h1 : iter s i = some (s1, t1)) (h2 : runLoop iter s1 is = some (s2, t2)) :
    runLoop iter s (i :: is) = some (s2, t1 ++ t2) := by
  simp [runLoop, h1, h2]

/-- Drift-freedom of a task loop: when every iteration from a state of the
invariant succeeds, keeps the invariant and advances the wake time by
`vTaskDelayUntil` with increment `P`, the loop succeeds for every input
sequence and the wake time after `N` iterations is the initial one plus
`N * P`, modulo the tick width. -/
theorem runLoop_last_time {σ ι : Type} (iter : σ → ι → Option (σ × List Call))
    (lt : σ → Nat) (Inv : σ → Prop) (w P : Nat)
    (hstep : ∀ s i, Inv s → ∃ s1 t1, iter s i = some (s1, t1) ∧ Inv s1 ∧
      lt s1 = vTaskDelayUntil w (lt s) P) :
    ∀ (is : List ι) (s : σ), Inv s → lt s < 2 ^ w →
      ∃ s2 t2, runLoop iter s is = some (s2, t2) ∧ Inv s2 ∧
        lt s2 = (lt s + is.length * P) % 2 ^ w := by
  intro is
  induction is with
  | nil =>
    intro s hs hlt
    exact ⟨s, [], rfl, hs, by simp [Nat.mod_eq_of_lt hlt]⟩
  | cons i is ih =>
    intro s hs hlt
    obtain ⟨s1, t1, h1, hs1, hl1⟩ := hstep s i hs
    have hpos : 0 < 2 ^ w := Nat.two_pow_pos w
    have hlt1 : lt s1 < 2 ^ w := by
      rw [hl1]; exact Nat.mod_lt _ hpos
    obtain ⟨s2, t2, h2, hs2, hl2⟩ := ih s1 hs1 hlt1
    refine ⟨s2, t1 ++ t2, runLoop_cons iter s s1 s2 t1 t2 i is h1 h2, hs2, ?_⟩
    rw [hl2, hl1]
    unfold vTaskDelayUntil
    rw [Nat.add_mod, Nat.mod_mod, ← Nat.add_mod]
    congr 1
    simp only [List.length_cons]
    ring

/-! ## Properties of the producers -/

/-- From a buffer of the invariant, the switch of a button monitor builds the
message of the edge, whatever an earlier edge left in the buffer. -/
theorem buttonSwitch_edge (c : ButtonCfg) (hc : c = button1 ∨ c = button2)
    (M : message_t)
    (hM : M = message_zero ∨ M = edgeMessage c pinState_t.PIN_IS_HIGH ∨
      M = edgeMessage c pinState_t.PIN_IS_LOW) (r : pinState_t) :
    buttonSwitch c M
      (if r = pinState_t.PIN_IS_HIGH then buttonEvent_t.RE else buttonEvent_t.FE)
      = some (edgeMessage c r, true) := by
  rcases hc with rfl | rfl <;> rcases hM with rfl | rfl | rfl <;> cases r <;> decide

/-- One iteration of a button monitor from a state of the invariant: it
succeeds, keeps the invariant, advances the wake time by 50 ticks, records
the level read, and sends the message of the edge exactly when the level
read differs from the previous one. -/
theorem buttonIteration_spec (w : Nat) (c : ButtonCfg) (hc : c = button1 ∨ c = button2)
    (s : ButtonState) (i : ButtonInput) (hs : ButtonInv c s) :
    ∃ s1 t1, buttonIteration w c s i = some (s1, t1) ∧ ButtonInv c s1 ∧
      s1.last_time = vTaskDelayUntil w s.last_time 50 ∧
      s1.PrevState = i.CurrState ∧
      sentMessages t1 =
        (if i.CurrState ≠ s.PrevState then [edgeMessage c i.CurrState] else []) := by
  by_cases h : i.CurrState = s.PrevState
  · have e : buttonIteration w c s i =
        some ({ last_time := vTaskDelayUntil w s.last_time (u8 50), Message := s.Message,
                send := false, PrevState := s.PrevState },
              [Call.GPIO_read portX_t.PORT_1 c.pin,
               Call.vTaskDelayUntil s.last_time (u8 50)]) := by
      simp [buttonIteration, buttonEdge, h, buttonSwitch]
    refine ⟨_, _, e, hs, rfl, h.symm, ?_⟩
    simp [h, sentMessages]
  · have hsw := buttonSwitch_edge c hc s.Message hs i.CurrState
    have e : buttonIteration w c s i =
        some ({ last_time := vTaskDelayUntil w s.last_time (u8 50),
                Message := edgeMessage c i.CurrState,
                send := true, PrevState := i.CurrState },
              [Call.GPIO_read portX_t.PORT_1 c.pin,
               Call.xQueueSendToBack (edgeMessage c i.CurrState) (u8 5),
               Call.vTaskDelayUntil s.last_time (u8 50)]) := by
      simp [buttonIteration, buttonEdge, h, hsw]
    refine ⟨_, _, e, ?_, rfl, rfl, ?_⟩
    · cases hi : i.CurrState
      · exact Or.inr (Or.inr (by simp [hi]))
      · exact Or.inr (Or.inl (by simp [hi]))
    · simp [h, sentMessages]

/-- A run of the loop of a button monitor from a state of the invariant: it
succeeds, and the messages sent are the messages of the level changes, in
order. -/
theorem buttonLoop_spec (w : Nat) (c : ButtonCfg) (hc : c = button1 ∨ c = button2) :
    ∀ (is : List ButtonInput) (s : ButtonState), ButtonInv c s →
      ∃ s2 t2, runLoop (buttonIteration w c) s is = some (s2, t2) ∧ ButtonInv c s2 ∧
        s2.PrevState = (is.map ButtonInput.CurrState).getLastD s.PrevState ∧
        sentMessages t2 =
          (changes s.PrevState (is.map ButtonInput.CurrState)).map (edgeMessage c) := by
  intro is
  induction is with
  | nil =>
    intro s hs
    exact ⟨s, [], rfl, hs, rfl, rfl⟩
  | cons i is ih =>
    intro s hs
    obtain ⟨s1, t1, h1, hs1, -, hp1, hm1⟩ := buttonIteration_spec w c hc s i hs
    obtain ⟨s2, t2, h2, hs2, hp2, hm2⟩ := ih s1 hs1
    refine ⟨s2, t1 ++ t2, runLoop_cons _ s s1 s2 t1 t2 i is h1 h2, hs2, ?_, ?_⟩
    · rw [hp2, hp1]
      cases is <;> simp [List.getLastD]
    · rw [sentMessages_append, hm1, hm2, hp1]
      by_cases h : i.CurrState = s.PrevState
      · simp [changes, h]
      · simp [changes, h]

/-- The initial state of a button monitor satisfies the invariant. -/
theorem buttonInit_inv (c : ButtonCfg) (r0 : pinState_t) (t0 : Nat) :
    ButtonInv c (buttonInit c r0 t0).1 := Or.inl rfl

/-- A button monitor, run from its start: it succeeds, the state it reaches
satisfies the invariant and holds the last level read, and the messages sent
are the messages of the level changes, in order. -/
theorem buttonMonitor_spec (w : Nat) (c : ButtonCfg) (hc : c = button1 ∨ c = button2)
    (r0 : pinState_t) (t0 : Nat) (is : List ButtonInput) :
    ∃ s t, buttonMonitor w c r0 t0 is = some (s, t) ∧ ButtonInv c s ∧
      s.PrevState = (is.map ButtonInput.CurrState).getLastD r0 ∧
      sentMessages t = (changes r0 (is.map ButtonInput.CurrState)).map (edgeMessage c) := by
  obtain ⟨s2, t2, h2, hs2, hp2, hm2⟩ :=
    buttonLoop_spec w c hc is (buttonInit c r0 t0).1 (buttonInit_inv c r0 t0)
  refine ⟨s2, (buttonInit c r0 t0).2 ++ t2, ?_, hs2, hp2, ?_⟩
  · simp [buttonMonitor, h2]
  · rw [sentMessages_append, hm2]
    rfl

/-- The number of kept readings is the number of level changes. -/
theorem changes_length (prev : pinState_t) (rs : List pinState_t) :
    (changes prev rs).length = levelChanges prev rs := by
  induction rs generalizing prev with
  | nil => rfl
  | cons r rs ih =>
    by_cases h : r = prev
    · simp [changes, levelChanges, h, ih]
    · simp [changes, levelChanges, h, ih]
      omega

/-- Successive level changes end at different levels, and the first one ends
at a level different from the initial one. -/
theorem changes_chain (prev : pinState_t) (rs : List pinState_t) :
    List.Chain (fun a b => a ≠ b) prev (changes prev rs) := by
  induction rs generalizing prev with
  | nil => exact List.Chain.nil
  | cons r rs ih =>
    by_cases h : r = prev
    · subst h
      simpa [changes] using ih r
    · simp only [changes, ne_eq, h, not_false_eq_true, if_true]
      exact List.Chain.cons (fun e => h e.symm) (ih r)

/-- The text held by the message of an edge is the text of the edge. -/
theorem edgeMessage_text (c : ButtonCfg) (hc : c = button1 ∨ c = button2) (r : pinState_t) :
    cText (edgeMessage c r).messageData = cstr (edgeText c r) := by
  rcases hc with rfl | rfl <;> cases r <;> decide

/-- The behaviour of a button monitor on level changes, for either monitor. -/
theorem buttonMonitor_edges (w : Nat) (c : ButtonCfg) (hc : c = button1 ∨ c = button2)
    (r0 : pinState_t) (t0 : Nat) (is : List ButtonInput) (i : ButtonInput) :
    ∃ s t s1 t1, buttonMonitor w c r0 t0 is = some (s, t) ∧
      s.PrevState = (is.map ButtonInput.CurrState).getLastD r0 ∧
      buttonIteration w c s i = some (s1, t1) ∧
      (i.CurrState ≠ s.PrevState → ∃ m, sentMessages t1 = [m] ∧
        cText m.messageData =
          cstr (if i.CurrState = pinState_t.PIN_IS_HIGH then c.risingText
                else c.fallingText)) ∧
      (i.CurrState = s.PrevState → sentMessages t1 = []) ∧
      (sentMessages t).length = levelChanges r0 (is.map ButtonInput.CurrState) ∧
      List.Chain'
        (fun a b =>
          (cText a.messageData = cstr c.risingText ∧
            cText b.messageData = cstr c.fallingText) ∨
          (cText a.messageData = cstr c.fallingText ∧
            cText b.messageData = cstr c.risingText))
        (sentMessages t) := by
  obtain ⟨s, t, hrun, hinv, hprev, hsent⟩ := buttonMonitor_spec w c hc r0 t0 is
  obtain ⟨s1, t1, hit, -, -, -, hm1⟩ := buttonIteration_spec w c hc s i hinv
  refine ⟨s, t, s1, t1, hrun, hprev, hit, ?_, ?_, ?_, ?_⟩
  · intro hne
    refine ⟨edgeMessage c i.CurrState, ?_, ?_⟩
    · rw [hm1]; simp [hne]
    · exact edgeMessage_text c hc i.CurrState
  · intro heq
    rw [hm1]; simp [heq]
  · rw [hsent, List.length_map, changes_length]
  · rw [hsent, List.chain'_map]
    have hch : List.Chain' (fun a b : pinState_t => a ≠ b)
        (r0 :: changes r0 (is.map ButtonInput.CurrState)) := changes_chain r0 _
    refine List.Chain'.imp ?_ hch.tail
    intro a b hab
    rw [edgeMessage_text c hc a, edgeMessage_text c hc b]
    cases a <;> cases b
    · exact absurd rfl hab
    · exact Or.inr ⟨rfl, rfl⟩
    · exact Or.inl ⟨rfl, rfl⟩
    · exact absurd rfl hab

/-- Claim C6: the button monitors as step functions over the levels read.
For `Button_1_Monitor` and for `Button_2_Monitor`, after any sequence of
iterations from any initial level `r0`, the state holds the last level read,
and the next iteration, reading `i.CurrState`, calls `xQueueSendToBack`
exactly once if that level differs from the last one, with the rising text
when the level is high and the falling text when it is low, and not at all
if the level is the same. The number of messages sent over the run is the
number of level changes among the levels read, and in the sequence of
messages sent a rising text is followed by a falling text and a falling text
by a rising text. -/
theorem button_monitor_sends_on_edges (w : Nat) (r0 : pinState_t) (t0 : Nat)
    (is : List ButtonInput) (i : ButtonInput) :
    (∃ s t s1 t1, Button_1_Monitor w r0 t0 is = some (s, t) ∧
      s.PrevState = (is.map ButtonInput.CurrState).getLastD r0 ∧
      buttonIteration w button1 s i = some (s1, t1) ∧
      (i.CurrState ≠ s.PrevState → ∃ m, sentMessages t1 = [m] ∧
        cText m.messageData =
          cstr (if i.CurrState = pinState_t.PIN_IS_HIGH then "Button_1_Rising_Edge"
                else "Button_1_Falling_Edge")) ∧
      (i.CurrState = s.PrevState → sentMessages t1 = []) ∧
      (sentMessages t).length = levelChanges r0 (is.map ButtonInput.CurrState) ∧
      List.Chain'
        (fun a b =>
          (cText a.messageData = cstr "Button_1_Rising_Edge" ∧
            cText b.messageData = cstr "Button_1_Falling_Edge") ∨
          (cText a.messageData = cstr "Button_1_Falling_Edge" ∧
            cText b.messageData = cstr "Button_1_Rising_Edge"))
        (sentMessages t)) ∧
    (∃ s t s1 t1, Button_2_Monitor w r0 t0 is = some (s, t) ∧
      s.PrevState = (is.map ButtonInput.CurrState).getLastD r0 ∧
      buttonIteration w button2 s i = some (s1, t1) ∧
      (i.CurrState ≠ s.PrevState → ∃ m, sentMessages t1 = [m] ∧
        cText m.messageData =
          cstr (if i.CurrState = pinState_t.PIN_IS_HIGH then "Button_2_Rising_Edge"
                else "Button_2_Falling_Edge")) ∧
      (i.CurrState = s.PrevState → sentMessages t1 = []) ∧
      (sentMessages t).length = levelChanges r0 (is.map ButtonInput.CurrState) ∧
      List.Chain'
        (fun a b =>
          (cText a.messageData = cstr "Button_2_Rising_Edge" ∧
            cText b.messageData = cstr "Button_2_Falling_Edge") ∨
          (cText a.messageData = cstr "Button_2_Falling_Edge" ∧
            cText b.messageData = cstr "Button_2_Rising_Edge"))
        (sentMessages t)) :=
  ⟨buttonMonitor_edges w button1 (Or.inl rfl) r0 t0 is i,
   buttonMonitor_edges w button2 (Or.inr rfl) r0 t0 is i⟩

/-- One iteration of the periodic transmitter from a state of the invariant:
it succeeds, leaves the transmitter message in the buffer, sends it, and
advances the wake time by 100 ticks. -/
theorem Periodic_Transmitter_iteration_spec (w : Nat) (s : TransmitterState) (b : Bool)
    (hs : TransmitterInv s) :
    Periodic_Transmitter_iteration w s b =
      some ({ last_time := vTaskDelayUntil w s.last_time 100, Message := transmitterMessage },
            [Call.xQueueSendToBack transmitterMessage 5,
             Call.vTaskDelayUntil s.last_time 100]) := by
  obtain ⟨lt, M⟩ := s
  rcases hs with h | h
  · simp only at h
    subst h
    rfl
  · simp only at h
    subst h
    rfl

/-- A run of the loop of the periodic transmitter from a state of the
invariant: it succeeds and sends the transmitter message once per
iteration. -/
theorem Periodic_Transmitter_loop_spec (w : Nat) :
    ∀ (is : List Bool) (s : TransmitterState), TransmitterInv s →
      ∃ s2 t2, runLoop (Periodic_Transmitter_iteration w) s is = some (s2, t2) ∧
        sentMessages t2 = List.replicate is.length transmitterMessage := by
  intro is
  induction is with
  | nil =>
    intro s _
    exact ⟨s, [], rfl, rfl⟩
  | cons i is ih =>
    intro s hs
    have h1 := Periodic_Transmitter_iteration_spec w s i hs
    obtain ⟨s2, t2, h2, hm2⟩ :=
      ih { last_time := vTaskDelayUntil w s.last_time 100, Message := transmitterMessage }
        (Or.inr rfl)
    refine ⟨s2, _, runLoop_cons _ s _ s2 _ t2 i is h1 h2, ?_⟩
    rw [sentMessages_append, hm2]
    simp [sentMessages, List.replicate_succ]

/-- The periodic transmitter, run from its start: it succeeds and sends the
transmitter message once per iteration. -/
theorem Periodic_Transmitter_spec (w t0 : Nat) (is : List Bool) :
    ∃ s t, Periodic_Transmitter w t0 is = some (s, t) ∧
      sentMessages t = List.replicate is.length transmitterMessage := by
  obtain ⟨s2, t2, h2, hm2⟩ :=
    Periodic_Transmitter_loop_spec w is (Periodic_Transmitter_init t0).1 (Or.inl rfl)
  refine ⟨s2, (Periodic_Transmitter_init t0).2 ++ t2, ?_, ?_⟩
  · simp [Periodic_Transmitter, h2]
  · rw [sentMessages_append, hm2]
    rfl

/-- A copy of a text of at most 21 characters into a buffer of 25 bytes,
followed by the store of a byte at index 24: both are in bounds, and the
store leaves the text and its terminator as the copy wrote them. -/
theorem strcpy_store_spec (d text : List Nat) (v : Nat) (hd : d.length = 25)
    (ht : text.length ≤ 21) :
    ∃ d1 d2, strcpy d text = some d1 ∧ d1.length = 25 ∧
      store d1 24 v = some d2 ∧ d2.length = 25 ∧
      d2.take (strcpyWritten text) = text ++ [0] ∧ d2[24]? = some v := by
  have hlen : (text ++ 0 :: d.drop (text.length + 1)).length = 25 := by
    simp only [List.length_append, List.length_cons, List.length_drop, hd]
    omega
  refine ⟨text ++ 0 :: d.drop (text.length + 1),
    (text ++ 0 :: d.drop (text.length + 1)).set 24 v, ?_, hlen, ?_, ?_, ?_, ?_⟩
  · have : text.length + 1 ≤ d.length := by omega
    simp [strcpy, this]
  · simp [store, hlen]
  · simp [hlen]
  · rw [List.take_set_of_lt _ _ (by unfold strcpyWritten; omega)]
    have e : text ++ 0 :: d.drop (text.length + 1) = (text ++ [0]) ++ d.drop (text.length + 1) := by
      simp
    rw [e]
    exact List.take_left' (by simp [strcpyWritten])
  · rw [List.getElem?_set_self (by omega)]

/-- Claim C8: with `strcpy` a bounds-checked store of the text and its NUL
into the 25-byte `messageData`, each of the five texts copied by
`Button_1_Monitor`, `Button_2_Monitor` and `Periodic_Transmitter` takes at
most 22 bytes (the longest, a falling-edge text, has 21 characters and takes
exactly 22), so for every buffer of 25 bytes the copy is in bounds; the
store of the newline at index `25 - 1 = 24` is in bounds, lies beyond the
bytes the copy wrote, and leaves the text and its terminator unchanged. The
three tasks therefore never take the out-of-bounds branch: each run
succeeds, for every sequence of inputs. -/
theorem strcpy_never_out_of_bounds :
    (∀ T ∈ [button1.risingText, button1.fallingText, button2.risingText,
            button2.fallingText, "Periodic_Transmitter"],
      strcpyWritten (cstr T) ≤ 22 ∧
      ∀ d : List Nat, d.length = u8 25 →
        ∃ d1 d2, strcpy d (cstr T) = some d1 ∧ d1.length = u8 25 ∧
          store d1 (u8 25 - 1) NEWLINE = some d2 ∧
          strcpyWritten (cstr T) ≤ u8 25 - 1 ∧
          d2.take (strcpyWritten (cstr T)) = cstr T ++ [0] ∧
          d2[u8 25 - 1]? = some NEWLINE) ∧
    (cstr "Button_1_Falling_Edge").length = 21 ∧
    strcpyWritten (cstr "Button_1_Falling_Edge") = 22 ∧
    (∀ w r0 t0 is, (Button_1_Monitor w r0 t0 is).isSome = true) ∧
    (∀ w r0 t0 is, (Button_2_Monitor w r0 t0 is).isSome = true) ∧
    (∀ w t0 is, (Periodic_Transmitter w t0 is).isSome = true) := by
  refine ⟨?_, by decide, by decide, ?_, ?_, ?_⟩
  · intro T hT
    have hlen : (cstr T).length ≤ 21 := by
      simp only [List.mem_cons, List.mem_singleton, List.not_mem_nil, or_false] at hT
      rcases hT with rfl | rfl | rfl | rfl | rfl <;> decide
    refine ⟨by unfold strcpyWritten; omega, ?_⟩
    intro d hd
    obtain ⟨d1, d2, h1, h2, h3, -, h5, h6⟩ := strcpy_store_spec d (cstr T) NEWLINE hd hlen
    exact ⟨d1, d2, h1, h2, h3, by unfold strcpyWritten; show _ ≤ 24; omega, h5, h6⟩
  · intro w r0 t0 is
    obtain ⟨s, t, h, -⟩ := buttonMonitor_spec w button1 (Or.inl rfl) r0 t0 is
    simp [Button_1_Monitor, h]
  · intro w r0 t0 is
    obtain ⟨s, t, h, -⟩ := buttonMonitor_spec w button2 (Or.inr rfl) r0 t0 is
    simp [Button_2_Monitor, h]
  · intro w t0 is
    obtain ⟨s, t, h, -⟩ := Periodic_Transmitter_spec w t0 is
    simp [h]

/-- The layout of a padded text: 25 bytes, the text first, zeros from the end
of the text up to index 23, the newline at index 24. -/
theorem paddedText_layout (text : List Nat) (ht : text.length ≤ 24) :
    (paddedText text).length = 25 ∧
    (paddedText text).take text.length = text ∧
    (∀ j, text.length ≤ j → j < 24 → (paddedText text)[j]? = some 0) ∧
    (paddedText text)[24]? = some NEWLINE := by
  refine ⟨?_, ?_, ?_, ?_⟩
  · simp only [paddedText, List.length_append, List.length_replicate, List.length_singleton]
    omega
  · unfold paddedText
    rw [List.append_assoc]
    exact List.take_left' rfl
  · intro j h1 h2
    unfold paddedText
    rw [List.append_assoc, List.getElem?_append_right h1,
      List.getElem?_append_left (by simp; omega), List.getElem?_replicate]
    simp
    omega
  · unfold paddedText
    have e : (text ++ List.replicate (24 - text.length) 0).length = 24 := by
      simp only [List.length_append, List.length_replicate]
      omega
    rw [List.getElem?_append_right (by omega), e]
    rfl

/-- Every message of an edge, of either monitor, has a buffer of 25 bytes
that ends with the newline, and the identifier 0. -/
theorem edgeMessage_shape (c : ButtonCfg) (hc : c = button1 ∨ c = button2) (r : pinState_t) :
    (edgeMessage c r).messageID = 0 ∧ (edgeMessage c r).messageData.length = 25 ∧
      (edgeMessage c r).messageData[24]? = some (Char.toNat '\n') := by
  rcases hc with rfl | rfl <;> cases r <;> decide

/-- Claim C9: the message sent is a function of the current event alone,
although the buffer is reused. For every initial level and every sequence of
readings, the messages `Button_n_Monitor` sends are, in order, one per level
change, the message with identifier 0 and the padded text of that change:
the rising text for a change to high, the falling text for a change to low,
zeros from the end of the text up to index 23, and the newline at index 24.
Every message `Periodic_Transmitter` sends has identifier `'3'` (0x33) and
the padded text `Periodic_Transmitter`. -/
theorem sent_message_is_function_of_event :
    (∀ w r0 t0 is, ∃ s t, Button_1_Monitor w r0 t0 is = some (s, t) ∧
      sentMessages t = (changes r0 (is.map ButtonInput.CurrState)).map
        (fun r => ({ messageID := 0,
                     messageData := paddedText (cstr
                       (if r = pinState_t.PIN_IS_HIGH then "Button_1_Rising_Edge"
                        else "Button_1_Falling_Edge")) } : message_t))) ∧
    (∀ w r0 t0 is, ∃ s t, Button_2_Monitor w r0 t0 is = some (s, t) ∧
      sentMessages t = (changes r0 (is.map ButtonInput.CurrState)).map
        (fun r => ({ messageID := 0,
                     messageData := paddedText (cstr
                       (if r = pinState_t.PIN_IS_HIGH then "Button_2_Rising_Edge"
                        else "Button_2_Falling_Edge")) } : message_t))) ∧
    (∀ w t0 is, ∃ s t, Periodic_Transmitter w t0 is = some (s, t) ∧
      sentMessages t = List.replicate is.length
        ({ messageID := 0x33,
           messageData := paddedText (cstr "Periodic_Transmitter") } : message_t)) ∧
    (∀ text : List Nat, text.length ≤ 24 →
      (paddedText text).length = 25 ∧
      (paddedText text).take text.length = text ∧
      (∀ j, text.length ≤ j → j < 24 → (paddedText text)[j]? = some 0) ∧
      (paddedText text)[24]? = some (Char.toNat '\n')) := by
  refine ⟨?_, ?_, ?_, paddedText_layout⟩
  · intro w r0 t0 is
    obtain ⟨s, t, h, -, -, hm⟩ := buttonMonitor_spec w button1 (Or.inl rfl) r0 t0 is
    exact ⟨s, t, h, hm⟩
  · intro w r0 t0 is
    obtain ⟨s, t, h, -, -, hm⟩ := buttonMonitor_spec w button2 (Or.inr rfl) r0 t0 is
    exact ⟨s, t, h, hm⟩
  · intro w t0 is
    exact Periodic_Transmitter_spec w t0 is

/-- Claim C2: every message that `Button_1_Monitor`, `Button_2_Monitor` or
`Periodic_Transmitter` passes to `xQueueSendToBack`, in any iteration of any
run, is a value of 26 bytes, the size of `message_t`: an identifier that
fits one byte and a text buffer of 25 bytes, whose last byte
`messageData[24]` is the newline character. -/
theorem sent_message_ends_with_newline :
    sizeof_message_t = 26 ∧
    (∀ w r0 t0 is, ∃ s t, Button_1_Monitor w r0 t0 is = some (s, t) ∧
      ∀ m ∈ sentMessages t, m.messageID < 256 ∧ m.messageData.length = 25 ∧
        1 + m.messageData.length = sizeof_message_t ∧
        m.messageData[24]? = some (Char.toNat '\n')) ∧
    (∀ w r0 t0 is, ∃ s t, Button_2_Monitor w r0 t0 is = some (s, t) ∧
      ∀ m ∈ sentMessages t, m.messageID < 256 ∧ m.messageData.length = 25 ∧
        1 + m.messageData.length = sizeof_message_t ∧
        m.messageData[24]? = some (Char.toNat '\n')) ∧
    (∀ w t0 is, ∃ s t, Periodic_Transmitter w t0 is = some (s, t) ∧
      ∀ m ∈ sentMessages t, m.messageID < 256 ∧ m.messageData.length = 25 ∧
        1 + m.messageData.length = sizeof_message_t ∧
        m.messageData[24]? = some (Char.toNat '\n')) := by
  have key : ∀ c, (c = button1 ∨ c = button2) → ∀ w r0 t0 is,
      ∃ s t, buttonMonitor w c r0 t0 is = some (s, t) ∧
        ∀ m ∈ sentMessages t, m.messageID < 256 ∧ m.messageData.length = 25 ∧
          1 + m.messageData.length = sizeof_message_t ∧
          m.messageData[24]? = some (Char.toNat '\n') := by
    intro c hc w r0 t0 is
    obtain ⟨s, t, h, -, -, hm⟩ := buttonMonitor_spec w c hc r0 t0 is
    refine ⟨s, t, h, ?_⟩
    intro m hmem
    rw [hm, List.mem_map] at hmem
    obtain ⟨r, -, rfl⟩ := hmem
    obtain ⟨h1, h2, h3⟩ := edgeMessage_shape c hc r
    refine ⟨by omega, h2, ?_, h3⟩
    rw [h2]
    rfl
  refine ⟨rfl, key button1 (Or.inl rfl), key button2 (Or.inr rfl), ?_⟩
  intro w t0 is
  obtain ⟨s, t, h, hm⟩ := Periodic_Transmitter_spec w t0 is
  refine ⟨s, t, h, ?_⟩
  intro m hmem
  rw [hm] at hmem
  obtain rfl := List.eq_of_mem_replicate hmem
  decide

/-! ## Properties of the receiver -/

/-- The strings a run of the loop of `Uart_Receiver` transmits are the texts
of the messages received, in order. -/
theorem Uart_Receiver_loop_spec (w : Nat) :
    ∀ (is : List (Option message_t)) (s : ReceiverState),
      ∃ s2 t2, runLoop (Uart_Receiver_iteration w) s is = some (s2, t2) ∧
        transmitted t2 = (is.filterMap id).map (fun m => (m.messageData, 25)) := by
  intro is
  induction is with
  | nil =>
    intro s
    exact ⟨s, [], rfl, rfl⟩
  | cons i is ih =>
    intro s
    cases i with
    | none =>
      obtain ⟨s2, t2, h2, hm2⟩ :=
        ih { last_time := vTaskDelayUntil w s.last_time (u8 20),
             xMessageBuffer := s.xMessageBuffer }
      refine ⟨s2, _, runLoop_cons _ s _ s2 _ t2 none is rfl h2, ?_⟩
      rw [transmitted_append, hm2]
      simp [transmitted]
    | some m =>
      obtain ⟨s2, t2, h2, hm2⟩ :=
        ih { last_time := vTaskDelayUntil w s.last_time (u8 20), xMessageBuffer := m }
      refine ⟨s2, _, runLoop_cons _ s _ s2 _ t2 (some m) is rfl h2, ?_⟩
      rw [transmitted_append, hm2]
      simp [transmitted, u8]

/-- Claim C7: in every iteration of `Uart_Receiver`, from any state, the
outcome of `xQueueReceive` (called with a timeout of 5 ticks) decides what is
transmitted: when it succeeded with the message `m`, `vSerialPutString` is
called exactly once, with `m.messageData` and the length 25; when it did not
succeed, `vSerialPutString` is not called. Over a whole run, from any
initial content of the buffer, the strings transmitted are exactly the texts
of the messages received, in order, so the initial content of the buffer is
never transmitted. -/
theorem uart_receiver_transmits_iff_received (w : Nat) (garbage : message_t) (t0 : Nat)
    (is : List (Option message_t)) (s : ReceiverState) :
    (∀ m, ∃ s1, Uart_Receiver_iteration w s (some m) =
        some (s1, [Call.xQueueReceive 5, Call.vSerialPutString m.messageData 25,
                   Call.vTaskDelayUntil s.last_time 20])) ∧
    (∃ s1, Uart_Receiver_iteration w s none =
        some (s1, [Call.xQueueReceive 5, Call.vTaskDelayUntil s.last_time 20])) ∧
    (∀ received, ∃ s1 t1, Uart_Receiver_iteration w s received = some (s1, t1) ∧
      transmitted t1 = received.toList.map (fun m => (m.messageData, 25))) ∧
    (∃ s2 t2, Uart_Receiver w garbage t0 is = some (s2, t2) ∧
      transmitted t2 = (is.filterMap id).map (fun m => (m.messageData, 25))) := by
  refine ⟨fun m => ⟨_, rfl⟩, ⟨_, rfl⟩, ?_, ?_⟩
  · intro received
    cases received with
    | none => exact ⟨_, _, rfl, rfl⟩
    | some m => exact ⟨_, _, rfl, rfl⟩
  · obtain ⟨s2, t2, h2, hm2⟩ := Uart_Receiver_loop_spec w is (Uart_Receiver_init garbage t0).1
    refine ⟨s2, (Uart_Receiver_init garbage t0).2 ++ t2, ?_, ?_⟩
    · simp [Uart_Receiver, h2]
    · rw [transmitted_append, hm2]
      rfl

/-! ## Properties of the load simulators -/

/-- One pass of the condition and body of the busy loop below the bound: the
body leaves the counter as it is and the increment adds exactly one. -/
theorem busyLoop_step (bound fuel i n : Nat) (hb : bound < 2 ^ 32) (h : i < bound) :
    busyLoop bound (fuel + 1) i n = busyLoop bound fuel (i + 1) (n + 1) := by
  have hm : (i + 1) % 2 ^ 32 = i + 1 := Nat.mod_eq_of_lt (by omega)
  show (if i < bound then busyLoop bound fuel ((i + 1) % 2 ^ 32) (n + 1) else some (i, n)) = _
  rw [if_pos h, hm]

/-- The busy loop with a bound that fits 32 bits: from the counter `i`, with
more fuel than iterations left, it ends with the counter at the bound after
`bound - i` executions of its body. -/
theorem busyLoop_spec (bound : Nat) (hb : bound < 2 ^ 32) :
    ∀ (fuel i n : Nat), i ≤ bound → bound - i < fuel →
      busyLoop bound fuel i n = some (bound, n + (bound - i)) := by
  intro fuel
  induction fuel with
  | zero => intro i n _ h; omega
  | succ fuel ih =>
    intro i n hi hf
    by_cases h : i < bound
    · rw [busyLoop_step bound fuel i n hb h, ih (i + 1) (n + 1) (by omega) (by omega)]
      congr 2
      omega
    · have hi2 : i = bound := by omega
      subst hi2
      show (if i < i then busyLoop i fuel ((i + 1) % 2 ^ 32) (n + 1) else some (i, n)) = _
      rw [if_neg h, Nat.sub_self, Nat.add_zero]

/-- One iteration of the outer loop of a load simulator with factor 5 or 12,
given enough fuel: the busy loop ends with the counter at `k * 6666` and the
task calls `vTaskDelayUntil`. -/
theorem loadIteration_spec (w fuel k period : Nat) (s : LoadState)
    (hk : k = 5 ∨ k = 12) (hf : k * 6666 < fuel) :
    loadIteration w fuel k period s () =
      some ({ last_time := vTaskDelayUntil w s.last_time period, i := k * 6666 },
            [Call.vTaskDelayUntil s.last_time period]) := by
  rcases hk with rfl | rfl
  · have h : busyLoop 33330 fuel 0 0 = some (33330, 0 + (33330 - 0)) :=
      busyLoop_spec 33330 (by norm_num) fuel 0 0 (Nat.zero_le _) (by omega)
    have e : loadIteration w fuel 5 period s () =
        match busyLoop 33330 fuel 0 0 with
        | none => none
        | some r =>
          some ({ last_time := vTaskDelayUntil w s.last_time period, i := r.1 },
                [Call.vTaskDelayUntil s.last_time period]) := rfl
    rw [e, h]
  · have h : busyLoop 79992 fuel 0 0 = some (79992, 0 + (79992 - 0)) :=
      busyLoop_spec 79992 (by norm_num) fuel 0 0 (Nat.zero_le _) (by omega)
    have e : loadIteration w fuel 12 period s () =
        match busyLoop 79992 fuel 0 0 with
        | none => none
        | some r =>
          some ({ last_time := vTaskDelayUntil w s.last_time period, i := r.1 },
                [Call.vTaskDelayUntil s.last_time period]) := rfl
    rw [e, h]

/-- Claim C10: the busy loops of the load simulators terminate. The bounds
`(uint8_t)5 * (uint16_t)6666` and `(uint8_t)12 * (uint16_t)6666` are computed
in `int` without overflow and are 33330 and 79992 as `uint32_t`; with more
fuel than that, the loop of `Load_1_Simulation` returns after exactly
5 * 6666 = 33330 executions of its body and the loop of `Load_2_Simulation`
after exactly 12 * 6666 = 79992, and the iteration of the task then calls
`vTaskDelayUntil`. Below the bound, one pass leaves the counter unchanged in
the body and increments it by exactly 1. -/
theorem busy_loops_terminate :
    mulInt (u8 5 : Nat) (u16 6666 : Nat) = some 33330 ∧
    mulInt (u8 12 : Nat) (u16 6666 : Nat) = some 79992 ∧
    loadBound 5 = some (5 * 6666) ∧ loadBound 12 = some (12 * 6666) ∧
    (∀ fuel, 33330 < fuel → busyLoop (5 * 6666) fuel 0 0 = some (33330, 33330)) ∧
    (∀ fuel, 79992 < fuel → busyLoop (12 * 6666) fuel 0 0 = some (79992, 79992)) ∧
    (∀ bound fuel i n, bound < 2 ^ 32 → i < bound →
      busyLoop bound (fuel + 1) i n = busyLoop bound fuel (i + 1) (n + 1)) ∧
    (∀ w fuel s, 33330 < fuel →
      loadIteration w fuel 5 (u8 10) s () =
        some ({ last_time := vTaskDelayUntil w s.last_time 10, i := 33330 },
              [Call.vTaskDelayUntil s.last_time 10])) ∧
    (∀ w fuel s, 79992 < fuel →
      loadIteration w fuel 12 (u8 100) s () =
        some ({ last_time := vTaskDelayUntil w s.last_time 100, i := 79992 },
              [Call.vTaskDelayUntil s.last_time 100])) := by
  have b5 : loadBound 5 = some 33330 := by decide
  have b12 : loadBound 12 = some 79992 := by decide
  refine ⟨by decide, by decide, b5, b12, ?_, ?_, ?_, ?_, ?_⟩
  · intro fuel hf
    exact busyLoop_spec 33330 (by norm_num) fuel 0 0 (Nat.zero_le _) (by omega)
  · intro fuel hf
    exact busyLoop_spec 79992 (by norm_num) fuel 0 0 (Nat.zero_le _) (by omega)
  · intro bound fuel i n hb h
    exact busyLoop_step bound fuel i n hb h
  · intro w fuel s hf
    exact loadIteration_spec w fuel 5 (u8 10) s (Or.inl rfl) (by omega)
  · intro w fuel s hf
    exact loadIteration_spec w fuel 12 (u8 100) s (Or.inr rfl) (by omega)

/-- A run of the busy loops at the least sufficient fuel. -/
theorem busy_loops_terminate_witness :
    busyLoop (5 * 6666) 33331 0 0 = some (33330, 33330) ∧
    busyLoop (12 * 6666) 79993 0 0 = some (79992, 79992) :=
  ⟨busy_loops_terminate.2.2.2.2.1 33331 (by decide),
   busy_loops_terminate.2.2.2.2.2.1 79993 (by decide)⟩

/-! ## The wake times of the six tasks -/

/-- The wake time of a button monitor after a run. -/
theorem buttonMonitor_last_time (w : Nat) (c : ButtonCfg) (hc : c = button1 ∨ c = button2)
    (r0 : pinState_t) (t0 : Nat) (ht : t0 < 2 ^ w) (is : List ButtonInput) :
    ∃ s t, buttonMonitor w c r0 t0 is = some (s, t) ∧
      s.last_time = (t0 + is.length * 50) % 2 ^ w := by
  obtain ⟨s2, t2, h2, -, hl⟩ :=
    runLoop_last_time (buttonIteration w c) ButtonState.last_time (ButtonInv c) w 50
      (fun s i hs => by
        obtain ⟨s1, t1, h1, hs1, hl1, -⟩ := buttonIteration_spec w c hc s i hs
        exact ⟨s1, t1, h1, hs1, hl1⟩)
      is (buttonInit c r0 t0).1 (buttonInit_inv c r0 t0) ht
  exact ⟨s2, (buttonInit c r0 t0).2 ++ t2, by simp [buttonMonitor, h2], hl⟩

/-- The wake time of the periodic transmitter after a run. -/
theorem Periodic_Transmitter_last_time (w t0 : Nat) (ht : t0 < 2 ^ w) (is : List Bool) :
    ∃ s t, Periodic_Transmitter w t0 is = some (s, t) ∧
      s.last_time = (t0 + is.length * 100) % 2 ^ w := by
  obtain ⟨s2, t2, h2, -, hl⟩ :=
    runLoop_last_time (Periodic_Transmitter_iteration w) TransmitterState.last_time
      TransmitterInv w 100
      (fun s i hs =>
        ⟨_, _, Periodic_Transmitter_iteration_spec w s i hs, Or.inr rfl, rfl⟩)
      is (Periodic_Transmitter_init t0).1 (Or.inl rfl) ht
  exact ⟨s2, (Periodic_Transmitter_init t0).2 ++ t2, by simp [Periodic_Transmitter, h2], hl⟩

/-- The wake time of the receiver after a run. -/
theorem Uart_Receiver_last_time (w : Nat) (garbage : message_t) (t0 : Nat) (ht : t0 < 2 ^ w)
    (is : List (Option message_t)) :
    ∃ s t, Uart_Receiver w garbage t0 is = some (s, t) ∧
      s.last_time = (t0 + is.length * 20) % 2 ^ w := by
  obtain ⟨s2, t2, h2, -, hl⟩ :=
    runLoop_last_time (Uart_Receiver_iteration w) ReceiverState.last_time
      (fun _ => True) w 20
      (fun s i _ => by
        cases i with
        | none => exact ⟨_, _, rfl, trivial, rfl⟩
        | some m => exact ⟨_, _, rfl, trivial, rfl⟩)
      is (Uart_Receiver_init garbage t0).1 trivial ht
  exact ⟨s2, (Uart_Receiver_init garbage t0).2 ++ t2, by simp [Uart_Receiver, h2], hl⟩

/-- The wake time of a load simulator after a run of its outer loop. -/
theorem loadLoop_last_time (w fuel k period : Nat) (hk : k = 5 ∨ k = 12)
    (hf : k * 6666 < fuel) (s0 : LoadState) (ht : s0.last_time < 2 ^ w) (N : Nat) :
    ∃ s t, runLoop (loadIteration w fuel k period) s0 (List.replicate N ()) = some (s, t) ∧
      s.last_time = (s0.last_time + N * period) % 2 ^ w := by
  obtain ⟨s2, t2, h2, -, hl⟩ :=
    runLoop_last_time (loadIteration w fuel k period) LoadState.last_time
      (fun _ => True) w period
      (fun s _ _ => ⟨_, _, loadIteration_spec w fuel k period s hk hf, trivial, rfl⟩)
      (List.replicate N ()) s0 trivial ht
  rw [List.length_replicate] at hl
  exact ⟨s2, t2, h2, hl⟩

/-- Claim C3: with `vTaskDelayUntil` as the spec defines `delay_until`, for
each of the six tasks the run of `N` iterations of its loop succeeds, for
every sequence of values read in the iterations, and afterwards `last_time`
is the tick count `t0` read before the loop plus `N * P`, in the arithmetic
of the tick counter (modulo `2 ^ w`, and so exactly `t0 + N * P` when that
fits the counter), where `P` is the period given to `xTaskPeriodicCreate` for
this task in `main`: 50, 50, 100, 20, 10, 100. -/
theorem last_time_advances_by_period (w t0 stack : Nat) (env : MainEnv) (ht : t0 < 2 ^ w) :
    (createdPeriod TaskFunction_t.Button_1_Monitor (mainRun stack env 9).trace = some 50 ∧
      ∀ r0 is, ∃ s t, Button_1_Monitor w r0 t0 is = some (s, t) ∧
        s.last_time = (t0 + is.length * 50) % 2 ^ w ∧
        (t0 + is.length * 50 < 2 ^ w → s.last_time = t0 + is.length * 50)) ∧
    (createdPeriod TaskFunction_t.Button_2_Monitor (mainRun stack env 9).trace = some 50 ∧
      ∀ r0 is, ∃ s t, Button_2_Monitor w r0 t0 is = some (s, t) ∧
        s.last_time = (t0 + is.length * 50) % 2 ^ w ∧
        (t0 + is.length * 50 < 2 ^ w → s.last_time = t0 + is.length * 50)) ∧
    (createdPeriod TaskFunction_t.Periodic_Transmitter (mainRun stack env 9).trace
        = some 100 ∧
      ∀ is, ∃ s t, Periodic_Transmitter w t0 is = some (s, t) ∧
        s.last_time = (t0 + is.length * 100) % 2 ^ w ∧
        (t0 + is.length * 100 < 2 ^ w → s.last_time = t0 + is.length * 100)) ∧
    (createdPeriod TaskFunction_t.Uart_Receiver (mainRun stack env 9).trace = some 20 ∧
      ∀ garbage is, ∃ s t, Uart_Receiver w garbage t0 is = some (s, t) ∧
        s.last_time = (t0 + is.length * 20) % 2 ^ w ∧
        (t0 + is.length * 20 < 2 ^ w → s.last_time = t0 + is.length * 20)) ∧
    (createdPeriod TaskFunction_t.Load_1_Simulation (mainRun stack env 9).trace = some 10 ∧
      ∀ fuel garbage N, 33330 < fuel →
        ∃ s t, Load_1_Simulation w fuel garbage t0 N = some (s, t) ∧
          s.last_time = (t0 + N * 10) % 2 ^ w ∧
          (t0 + N * 10 < 2 ^ w → s.last_time = t0 + N * 10)) ∧
    (createdPeriod TaskFunction_t.Load_2_Simulation (mainRun stack env 9).trace = some 100 ∧
      ∀ fuel garbage N, 79992 < fuel →
        ∃ s t, Load_2_Simulation w fuel garbage t0 N = some (s, t) ∧
          s.last_time = (t0 + N * 100) % 2 ^ w ∧
          (t0 + N * 100 < 2 ^ w → s.last_time = t0 + N * 100)) := by
  refine ⟨⟨rfl, ?_⟩, ⟨rfl, ?_⟩, ⟨rfl, ?_⟩, ⟨rfl, ?_⟩, ⟨rfl, ?_⟩, ⟨rfl, ?_⟩⟩
  · intro r0 is
    obtain ⟨s, t, h, hl⟩ := buttonMonitor_last_time w button1 (Or.inl rfl) r0 t0 ht is
    exact ⟨s, t, h, hl, fun hlt => by rw [hl, Nat.mod_eq_of_lt hlt]⟩
  · intro r0 is
    obtain ⟨s, t, h, hl⟩ := buttonMonitor_last_time w button2 (Or.inr rfl) r0 t0 ht is
    exact ⟨s, t, h, hl, fun hlt => by rw [hl, Nat.mod_eq_of_lt hlt]⟩
  · intro is
    obtain ⟨s, t, h, hl⟩ := Periodic_Transmitter_last_time w t0 ht is
    exact ⟨s, t, h, hl, fun hlt => by rw [hl, Nat.mod_eq_of_lt hlt]⟩
  · intro garbage is
    obtain ⟨s, t, h, hl⟩ := Uart_Receiver_last_time w garbage t0 ht is
    exact ⟨s, t, h, hl, fun hlt => by rw [hl, Nat.mod_eq_of_lt hlt]⟩
  · intro fuel garbage N hf
    obtain ⟨s, t, h, hl⟩ :=
      loadLoop_last_time w fuel 5 (u8 10) (Or.inl rfl) (by omega) (loadInit 5 garbage t0).1 ht N
    have hl2 : s.last_time = (t0 + N * 10) % 2 ^ w := hl
    refine ⟨s, (loadInit 5 garbage t0).2 ++ t, ?_, hl2,
      fun hlt => by rw [hl2, Nat.mod_eq_of_lt hlt]⟩
    unfold Load_1_Simulation
    rw [h]
  · intro fuel garbage N hf
    obtain ⟨s, t, h, hl⟩ :=
      loadLoop_last_time w fuel 12 (u8 100) (Or.inr rfl) (by omega) (loadInit 6 garbage t0).1 ht N
    have hl2 : s.last_time = (t0 + N * 100) % 2 ^ w := hl
    refine ⟨s, (loadInit 6 garbage t0).2 ++ t, ?_, hl2,
      fun hlt => by rw [hl2, Nat.mod_eq_of_lt hlt]⟩
    unfold Load_2_Simulation
    rw [h]

/-- The wake times of the six tasks at a concrete start: a tick counter of 32
bits, the tick count 7 before the loop, and two iterations each. -/
theorem last_time_advances_by_period_witness :
    (7 < 2 ^ 32) ∧
    (∃ s t, Button_1_Monitor 32 pinState_t.PIN_IS_LOW 7
        [⟨pinState_t.PIN_IS_HIGH, true⟩, ⟨pinState_t.PIN_IS_HIGH, false⟩] = some (s, t) ∧
      s.last_time = 107) ∧
    (∃ s t, Uart_Receiver 32 message_zero 7 [none, some message_zero] = some (s, t) ∧
      s.last_time = 47) ∧
    (∃ s t, Load_1_Simulation 32 33331 0 7 2 = some (s, t) ∧ s.last_time = 27) := by
  have h := last_time_advances_by_period 32 7 0 ⟨none, fun _ => true, true⟩ (by decide)
  refine ⟨by decide, ?_, ?_, ?_⟩
  · obtain ⟨s, t, h1, h2, -⟩ := h.1.2 pinState_t.PIN_IS_LOW
      [⟨pinState_t.PIN_IS_HIGH, true⟩, ⟨pinState_t.PIN_IS_HIGH, false⟩]
    exact ⟨s, t, h1, h2⟩
  · obtain ⟨s, t, h1, h2, -⟩ := h.2.2.2.1.2 message_zero [none, some message_zero]
    exact ⟨s, t, h1, h2⟩
  · obtain ⟨s, t, h1, h2, -⟩ := h.2.2.2.2.1.2 33331 0 2 (by decide)
    exact ⟨s, t, h1, h2⟩

/-! ## The statements at concrete inputs -/

/-- The first button monitor on the readings high, high, low after an initial
low: two messages were sent, the state holds the level low, and an iteration
that reads high sends one message with the rising text. -/
theorem button_monitor_sends_on_edges_witness :
    ∃ s t s1 t1,
      Button_1_Monitor 32 pinState_t.PIN_IS_LOW 7
        [⟨pinState_t.PIN_IS_HIGH, true⟩, ⟨pinState_t.PIN_IS_HIGH, false⟩,
         ⟨pinState_t.PIN_IS_LOW, true⟩] = some (s, t) ∧
      s.PrevState = pinState_t.PIN_IS_LOW ∧
      buttonIteration 32 button1 s ⟨pinState_t.PIN_IS_HIGH, true⟩ = some (s1, t1) ∧
      (∃ m, sentMessages t1 = [m] ∧ cText m.messageData = cstr "Button_1_Rising_Edge") ∧
      (sentMessages t).length = 2 := by
  obtain ⟨s, t, s1, t1, h1, h2, h3, h4, -, h6, -⟩ :=
    (button_monitor_sends_on_edges 32 pinState_t.PIN_IS_LOW 7
      [⟨pinState_t.PIN_IS_HIGH, true⟩, ⟨pinState_t.PIN_IS_HIGH, false⟩,
       ⟨pinState_t.PIN_IS_LOW, true⟩] ⟨pinState_t.PIN_IS_HIGH, true⟩).1
  have hp : s.PrevState = pinState_t.PIN_IS_LOW := h2
  exact ⟨s, t, s1, t1, h1, hp, h3, h4 (by rw [hp]; decide), h6⟩

/-- The copy of the longest text into a buffer of 25 bytes of value 7, and
the store of the newline after it. -/
theorem strcpy_never_out_of_bounds_witness :
    ∃ d1 d2, strcpy (List.replicate 25 7) (cstr "Button_1_Falling_Edge") = some d1 ∧
      store d1 24 NEWLINE = some d2 ∧
      d2.take 22 = cstr "Button_1_Falling_Edge" ++ [0] ∧
      d2[24]? = some NEWLINE := by
  obtain ⟨d1, d2, h1, -, h3, -, h5, h6⟩ :=
    (strcpy_never_out_of_bounds.1 button1.fallingText (by simp)).2
      (List.replicate 25 7) (by decide)
  exact ⟨d1, d2, h1, h3, h5, h6⟩

/-- The first button monitor on the readings high, low after an initial low:
the rising message, then the falling message, each with its padded text. -/
theorem sent_message_is_function_of_event_witness :
    ∃ s t,
      Button_1_Monitor 32 pinState_t.PIN_IS_LOW 7
        [⟨pinState_t.PIN_IS_HIGH, true⟩, ⟨pinState_t.PIN_IS_LOW, true⟩] = some (s, t) ∧
      sentMessages t =
        [{ messageID := 0, messageData := paddedText (cstr "Button_1_Rising_Edge") },
         { messageID := 0, messageData := paddedText (cstr "Button_1_Falling_Edge") }] := by
  obtain ⟨s, t, h1, h2⟩ :=
    sent_message_is_function_of_event.1 32 pinState_t.PIN_IS_LOW 7
      [⟨pinState_t.PIN_IS_HIGH, true⟩, ⟨pinState_t.PIN_IS_LOW, true⟩]
  exact ⟨s, t, h1, h2⟩

end EDFDemo
